import Mathlib

/-!
Verification of the IDC stock monitor (src/monitor.py) against its
natural-language specification.

Modelling conventions of the shallow embedding:
* A Python `dict` is modelled as an association list `List (String × α)`
  with no duplicate keys; `dict.get(k)` is `dget`, `d[k] = v` is
  `dictInsert` (replace in place, else append, matching Python dict
  insertion-order semantics), `d.update(part)` is `dictUpdate`.
* Stock counts are `Nat`: they are produced by `int` applied to a string
  of decimal digits, hence non-negative.
* External I/O (HTTP fetch, HTML extraction, file system, Telegram) is
  modelled by passing the collaborators' outcomes as explicit parameters;
  the control flow of `main` is embedded as a pure function returning the
  ordered trace of side effects (snapshot saves and message sends)
  together with a flag telling whether the run returned normally
  (`true`) or an uncaught exception propagated (`false`).
* Timestamps (`datetime.utcnow()`) are passed in as an opaque string
  parameter `now`, since they are ambient input, not computed data.
-/


/-- A stock snapshot: Python `dict` from item name to stock count. -/
abbrev Snapshot := List (String × Nat)

/-- Python `d.get(k)`: first entry with key `k`, if any. -/
def dget {α : Type} (d : List (String × α)) (k : String) : Option α :=
  (d.find? (fun p => p.1 == k)).map Prod.snd

/-- Python `d[k] = v` on a dict: replace the value in place if the key is
present, otherwise append the new pair. -/
def dictInsert {α : Type} : List (String × α) → String → α → List (String × α)
  | [], k, v => [(k, v)]
  | (k0, v0) :: rest, k, v =>
      if k0 == k then (k0, v) :: rest else (k0, v0) :: dictInsert rest k v

/-- The keys of a dict, in order. -/
def keysOf {α : Type} (d : List (String × α)) : List String :=
  d.map Prod.fst

/-- `sorted(set(old.keys()) | set(new.keys()))` from `diff_stock`:
the union of the key sets, sorted ascending. -/
def allKeys (old new : Snapshot) : List String :=
  (((keysOf old) ++ (keysOf new)).dedup).insertionSort (· ≤ ·)

/-- `diff_stock(old, new)` (src/monitor.py:135-147): for every key of
either snapshot, in sorted order, record `(o, n) = (old.get(k), new.get(k))`
whenever the two differ (`None`, i.e. `none`, encodes absence). -/
def diff_stock (old new : Snapshot) : List (String × (Option Nat × Option Nat)) :=
  (allKeys old new).filterMap (fun k =>
    if dget old k ≠ dget new k then some (k, (dget old k, dget new k)) else none)

/-- Leading- and trailing-whitespace removal on a character list. -/
def stripChars (cs : List Char) : List Char :=
  ((cs.dropWhile Char.isWhitespace).reverse.dropWhile Char.isWhitespace).reverse

/-- Python `s.strip()` (whitespace on both ends removed), written with
structural recursion so that it evaluates by `decide` / `rfl`. -/
def pyStrip (s : String) : String :=
  String.mk (stripChars s.toList)

/-- Python `s.split(sep)` for a one-character separator:
`"".split(";") = [""]`, separators delimit possibly empty segments. -/
def splitOnChar (sep : Char) : List Char → List (List Char)
  | [] => [[]]
  | c :: rest =>
    match splitOnChar sep rest with
    | [] => if c = sep then [[], []] else [[c]]
    | h :: t => if c = sep then [] :: h :: t else (c :: h) :: t

/-- Python `s.split(sep, 1)` for a one-character separator: `none` when
`sep` does not occur, otherwise the pieces before and after its first
occurrence. -/
def splitFirst (sep : Char) : List Char → Option (List Char × List Char)
  | [] => none
  | c :: rest =>
    if c = sep then some ([], rest)
    else
      match splitFirst sep rest with
      | none => none
      | some (k, v) => some (c :: k, v)

/-- Does the first list open the second one? (Structural model of string
`startswith`.) -/
def startsWithChars : List Char → List Char → Bool
  | [], _ => true
  | _ :: _, [] => false
  | p :: ps, c :: cs => p == c && startsWithChars ps cs

/-- Python `s.startswith(pre)`. -/
def pyStartsWith (s pre : String) : Bool :=
  startsWithChars pre.toList s.toList

/-- One iteration of the `parse_cookies` loop (src/monitor.py:25-31) on a
single segment of `cookie_str.split(";")`: strip the segment, skip it if
empty or if it contains no `=` (`"=" in part` fails exactly when
`splitFirst` returns `none`), otherwise split at the first `=` and store
the stripped key and value. -/
def cookieStep (cookies : List (String × String)) (part0 : String) :
    List (String × String) :=
  let part := pyStrip part0
  if part = "" then cookies
  else
    match splitFirst '=' part.toList with
    | none => cookies
    | some (k, v) =>
        dictInsert cookies (pyStrip (String.mk k)) (pyStrip (String.mk v))

/-- `parse_cookies(cookie_str)` (src/monitor.py:20-32). -/
def parse_cookies (cookie_str : String) : List (String × String) :=
  ((splitOnChar ';' cookie_str.toList).map String.mk).foldl cookieStep []

/-- Python `x or 0` applied to `old` / `new` in `build_change_message`:
`None` and `0` are both falsy, so both give `0`. -/
def pyOrZero : Option Nat → Nat
  | none => 0
  | some n => if n = 0 then 0 else n

/-- The directional indicator of a change line:
`"↗️" if (old or 0) < (new or 0) else "↘️"` (src/monitor.py:212). -/
def changeArrow (old new : Option Nat) : String :=
  if pyOrZero old < pyOrZero new then "↗️" else "↘️"

/-- `"无" if x is None else str(x)` (src/monitor.py:213-214). -/
def optCountStr : Option Nat → String
  | none => "无"
  | some v => toString v

/-- One line of the change message,
`f"{k}: {old_s} -> {new_s} {arrow}"` (src/monitor.py:215). -/
def changeLine (k : String) (c : Option Nat × Option Nat) : String :=
  k ++ ": " ++ optCountStr c.1 ++ " -> " ++ optCountStr c.2 ++ " "
    ++ changeArrow c.1 c.2

/-- `"售罄 ❌" if v == 0 else "有货 ✅"` (src/monitor.py:178). -/
def statusText (v : Nat) : String := if v = 0 then "售罄 ❌" else "有货 ✅"

/-- One line of the full message, `f"{k}: {v}（{status}）"`. -/
def fullLine (k : String) (v : Nat) : String :=
  k ++ ": " ++ toString v ++ "（" ++ statusText v ++ "）"

/-- `sorted(d.items(), key=lambda x: x[0])`: sort entries by key,
ascending, stable. -/
def sortByKey {α : Type} (l : List (String × α)) : List (String × α) :=
  @List.insertionSort (String × α) (fun a b => a.1 ≤ b.1)
    (fun a b => inferInstanceAs (Decidable (a.1 ≤ b.1))) l

/-- `build_full_message(stock_dict, mode)` (src/monitor.py:150-190), with
the generation timestamp `now_utc` passed in: partition the snapshot into
the `HK`-prefixed group and the rest, sort each by name, render the
non-empty groups and the footer. -/
def build_full_message (stock_dict : Snapshot) (mode now_utc : String) :
    String :=
  let hk := sortByKey (stock_dict.filter (fun p => pyStartsWith p.1 "HK"))
  let other := sortByKey (stock_dict.filter (fun p => !pyStartsWith p.1 "HK"))
  let title := if mode = "daily" then "📊 IDC 每日库存汇总" else "⏱ IDC 实时库存"
  let lines := [title, ""]
    ++ (if hk ≠ [] then
          ["【HK 区（避孕套）】"] ++ hk.map (fun p => fullLine p.1 p.2) ++ [""]
        else [])
    ++ (if other ≠ [] then
          ["【其他区】"] ++ other.map (fun p => fullLine p.1 p.2) ++ [""]
        else [])
    ++ ["更新时间：" ++ now_utc]
  String.intercalate "\n" lines

/-- `build_change_message(changes, mode)` (src/monitor.py:193-232), with
the timestamp passed in: iterate the changed entries in sorted key order,
render each with `changeLine`, grouped as in the full message. -/
def build_change_message (changes : List (String × (Option Nat × Option Nat)))
    (mode now_utc : String) : String :=
  let title := if mode = "daily" then "📊 IDC 库存变动汇总" else "🔔 IDC 库存变动提醒"
  let sortedChanges := sortByKey changes
  let hk_lines := (sortedChanges.filter (fun p => pyStartsWith p.1 "HK")).map
    (fun p => changeLine p.1 p.2)
  let other_lines := (sortedChanges.filter (fun p => !pyStartsWith p.1 "HK")).map
    (fun p => changeLine p.1 p.2)
  let lines := [title, ""]
    ++ (if hk_lines ≠ [] then ["【HK 区（避孕套）】"] ++ hk_lines ++ [""] else [])
    ++ (if other_lines ≠ [] then ["【其他区】"] ++ other_lines ++ [""] else [])
    ++ ["更新时间：" ++ now_utc]
  String.intercalate "\n" lines

/-- An observable side effect of a run: a store write or a message send. -/
inductive Event where
  | save (s : Snapshot)
  | send (m : String)
deriving DecidableEq

/-- The diagnostic text `f"⚠️ 库存监控抓取失败：{e}"` (src/monitor.py:239). -/
def fetchFailMsg (e : String) : String := "⚠️ 库存监控抓取失败：" ++ e

/-- The diagnostic for an empty parsed snapshot (src/monitor.py:245). -/
def emptyStockMsg : String := "⚠️ 库存监控没有解析到任何库存，请检查页面结构或脚本。"

/-- The annotation appended on the first run (src/monitor.py:255). -/
def firstRunSuffix : String := "\n\n(首次采集)"

/-- `main()` (src/monitor.py:235-284), embedded over the outcomes of its
collaborators: `fetchResult` is the outcome of `fetch_stock()`
(`Except.error e` when it raised with message rendering `e`), `last` the
result of `load_last_stock()`, `mode` / `onlyOnChange` the `MODE` /
`ONLY_ON_CHANGE` configuration, `sendFails m` tells whether
`send_tg_message(m)` raises, `saveFails` whether `save_stock` raises, and
`now` the formatted timestamp. Returns the ordered trace of effects that
happened and `true` iff `main` returned without an uncaught exception. -/
def Monitor.main (fetchResult : Except String Snapshot) (last : Option Snapshot)
    (mode : String) (onlyOnChange : Bool)
    (sendFails : String → Bool) (saveFails : Bool) (now : String) :
    List Event × Bool :=
  match fetchResult with
  | .error e =>
      if sendFails (fetchFailMsg e) then ([], false)
      else ([.send (fetchFailMsg e)], true)
  | .ok current =>
    if current = [] then
      if sendFails emptyStockMsg then ([], false)
      else ([.send emptyStockMsg], true)
    else
      match last with
      | none =>
          if saveFails then ([], false)
          else
            let msg := build_full_message current mode now ++ firstRunSuffix
            if sendFails msg then ([.save current], false)
            else ([.save current, .send msg], true)
      | some lastStock =>
          let changes := diff_stock lastStock current
          if saveFails then ([], false)
          else if changes = [] then
            if onlyOnChange then ([.save current], true)
            else
              let msg := build_full_message current mode now
              if sendFails msg then ([.save current], false)
              else ([.save current, .send msg], true)
          else
            let msg := if onlyOnChange then build_change_message changes mode now
                       else build_full_message current mode now
            if sendFails msg then ([.save current], false)
            else ([.save current, .send msg], true)

/-- The messages sent in a trace, in order. -/
def sentMessages (t : List Event) : List String :=
  t.filterMap (fun e => match e with | .send m => some m | .save _ => none)

/-- The snapshots written to the store in a trace, in order. -/
def savedSnapshots (t : List Event) : List Snapshot :=
  t.filterMap (fun e => match e with | .save s => some s | .send _ => none)

/-- `load_last_stock()` (src/monitor.py:114-124) over the state of the
file system: `file` is the contents of `last_stock.json` when the file
exists, `parseJson` the outcome of `json.load` on given contents (`none`
when it raises; the loaded value is assumed to be a snapshot mapping).
Returns `None` both when the file is missing and when parsing fails. -/
def load_last_stock (file : Option String)
    (parseJson : String → Option Snapshot) : Option Snapshot :=
  match file with
  | none => none
  | some contents =>
    match parseJson contents with
    | none => none
    | some stock => some stock

/-- Python `needle in hay` for strings (substring containment). -/
def containsChars (needle : List Char) : List Char → Bool
  | [] => startsWithChars needle []
  | c :: rest => startsWithChars needle (c :: rest) || containsChars needle rest

/-- `"".join(ch for ch in stock_text if ch.isdigit())` (src/monitor.py:91),
with `isdigit` modelled over the decimal digits `0`-`9`. -/
def digitsOf (s : String) : String :=
  String.mk (s.toList.filter Char.isDigit)

/-- Python `int` on a non-empty string of decimal digits. -/
def digitsToNat (s : String) : Nat :=
  s.toList.foldl (fun n c => 10 * n + (c.toNat - Char.toNat '0')) 0

/-- The `card-text` search predicate of the stock tag loop
(src/monitor.py:82-84): does the text contain `库存`? -/
def hasStockMark (t : String) : Bool :=
  containsChars "库存".toList t.toList

/-- One product card (`div.card.cartitem`) as seen by
`fetch_stock_from_url`: its `h4` title text, if the tag exists, and the
texts of its `p.card-text` tags. -/
structure Card where
  title : Option String
  cardTexts : List String

/-- The body of the card loop of `fetch_stock_from_url`
(src/monitor.py:70-95): skip cards without an `h4`, with a blank title,
without a `card-text` containing `库存`, or whose stock text has no
digits; otherwise record the stripped title with the number formed by the
digit characters of the stock text. -/
def processCard (c : Card) : Option (String × Nat) :=
  match c.title with
  | none => none
  | some raw =>
    let name := pyStrip raw
    if name = "" then none
    else
      match c.cardTexts.find? hasStockMark with
      | none => none
      | some tag =>
        let digits := digitsOf (pyStrip tag)
        if digits = "" then none
        else some (name, digitsToNat digits)

/-- `fetch_stock_from_url(url)` (src/monitor.py:48-97) over the parsed
page's cards: fold the card loop into the result dict. -/
def fetch_stock_from_url (cards : List Card) : Snapshot :=
  cards.foldl (fun result c =>
    match processCard c with
    | none => result
    | some (k, v) => dictInsert result k v) []

/-- `total.update(part)`: insert every entry of `part` into `total` in
order, overwriting the value on key collision. -/
def dictUpdate (total part : Snapshot) : Snapshot :=
  part.foldl (fun acc p => dictInsert acc p.1 p.2) total

/-- `fetch_stock()` (src/monitor.py:100-111) over `pages`, the per-URL
results of `fetch_stock_from_url` in the order the URLs are listed in
`TARGET_URL`: merge them into one dict via `update`. -/
def fetch_stock (pages : List Snapshot) : Snapshot :=
  pages.foldl dictUpdate []

/-- `a if a is not None else b` on options: the first defined value. -/
def firstSome {α : Type} (a b : Option α) : Option α :=
  match a with
  | some v => some v
  | none => b

theorem dget_eq_none_iff {α : Type} (d : List (String × α)) (k : String) :
    dget d k = none ↔ k ∉ keysOf d := by
  induction d with
  | nil => simp [dget, keysOf]
  | cons p rest ih =>
    obtain ⟨k0, v0⟩ := p
    by_cases h : k0 = k
    · subst h
      simp [dget, keysOf, List.find?]
    · simp only [dget, keysOf, List.find?, List.map_cons, List.mem_cons]
      rw [show (k0 == k) = false from beq_eq_false_iff_ne.mpr h]
      simp only [dget, keysOf] at ih
      simp [ih, h, Ne.symm h]

theorem mem_allKeys (old new : Snapshot) (k : String) :
    k ∈ allKeys old new ↔ k ∈ keysOf old ∨ k ∈ keysOf new := by
  unfold allKeys
  rw [(List.perm_insertionSort (· ≤ ·) _).mem_iff, List.mem_dedup, List.mem_append]

/-- C1: `diff_stock(old, new)` contains key `k` iff `old.get(k)` differs
from `new.get(k)` (absence, modelled as `none`, is distinct from every
count including 0); consequently the change set is empty iff the two
snapshots are equal as mappings, and `diff_stock(A, A)` is empty. -/
theorem diff_stock_spec (old new : Snapshot) :
    (∀ k : String, (∃ e ∈ diff_stock old new, e.1 = k) ↔ dget old k ≠ dget new k)
    ∧ (diff_stock old new = [] ↔ ∀ k : String, dget old k = dget new k)
    ∧ diff_stock old old = [] := by
  have hmem : ∀ k : String,
      (∃ e ∈ diff_stock old new, e.1 = k) ↔ dget old k ≠ dget new k := by
    intro k
    constructor
    · rintro ⟨e, he, rfl⟩
      rcases List.mem_filterMap.mp he with ⟨a, -, hfa⟩
      by_cases hc : dget old a ≠ dget new a
      · rw [if_pos hc] at hfa
        injection hfa with h
        subst h
        exact hc
      · rw [if_neg hc] at hfa
        exact absurd hfa (by simp)
    · intro hne
      refine ⟨(k, (dget old k, dget new k)), ?_, rfl⟩
      apply List.mem_filterMap.mpr
      refine ⟨k, ?_, by rw [if_pos hne]⟩
      rw [mem_allKeys]
      by_cases ho : dget old k = none
      · right
        have hn : dget new k ≠ none := fun h => hne (ho.trans h.symm)
        by_contra hk
        exact hn ((dget_eq_none_iff new k).mpr hk)
      · left
        by_contra hk
        exact ho ((dget_eq_none_iff old k).mpr hk)
  refine ⟨hmem, ?_, ?_⟩
  · constructor
    · intro hnil k
      by_contra hne
      obtain ⟨e, he, _⟩ := (hmem k).mpr hne
      rw [hnil] at he
      exact absurd he (List.not_mem_nil e)
    · intro hall
      apply List.filterMap_eq_nil_iff.mpr
      intro k _
      simp [hall k]
  · apply List.filterMap_eq_nil_iff.mpr
    intro k _
    simp

/-- C7: `parse_cookies` folds `cookieStep` over the `";"`-split segments;
a segment that strips to the empty string contributes nothing, a segment
with no `=` contributes nothing, and any other segment stores the
whitespace-trimmed key and value split at the first `=`; in particular
`parse_cookies("a=1; ; b = 2;")` is `{"a": "1", "b": "2"}`. -/
theorem splitFirst_eq_none_iff (sep : Char) (cs : List Char) :
    splitFirst sep cs = none ↔ sep ∉ cs := by
  induction cs with
  | nil => simp [splitFirst]
  | cons c rest ih =>
    by_cases h : c = sep
    · simp [splitFirst, h]
    · rw [splitFirst, if_neg h]
      cases hs : splitFirst sep rest with
      | none => simp [List.mem_cons, Ne.symm h, ih.mp hs]
      | some p =>
        obtain ⟨k, v⟩ := p
        have hmem : sep ∈ rest := by
          by_contra hn
          rw [ih.mpr hn] at hs
          exact Option.noConfusion hs
        simp [List.mem_cons, hmem]

/-- C7: `parse_cookies` folds `cookieStep` over the `";"`-split segments
of its input; a segment that strips to the empty string contributes
nothing, a segment with no `=` (i.e. on which `splitFirst` finds nothing)
contributes nothing, and every other segment stores the
whitespace-stripped key and value split at the first `=`; in particular
`parse_cookies("a=1; ; b = 2;")` is `{"a": "1", "b": "2"}`. -/
theorem parse_cookies_spec :
    (∀ s : String, parse_cookies s
        = ((splitOnChar ';' s.toList).map String.mk).foldl cookieStep [])
    ∧ (∀ cs : List Char, splitFirst '=' cs = none ↔ '=' ∉ cs)
    ∧ (∀ (acc : List (String × String)) (part : String),
        pyStrip part = "" → cookieStep acc part = acc)
    ∧ (∀ (acc : List (String × String)) (part : String),
        splitFirst '=' (pyStrip part).toList = none → cookieStep acc part = acc)
    ∧ (∀ (acc : List (String × String)) (part : String) (k v : List Char),
        splitFirst '=' (pyStrip part).toList = some (k, v) →
        pyStrip part ≠ "" →
        cookieStep acc part
          = dictInsert acc (pyStrip (String.mk k)) (pyStrip (String.mk v)))
    ∧ parse_cookies "a=1; ; b = 2;" = [("a", "1"), ("b", "2")] := by
  refine ⟨fun s => rfl, splitFirst_eq_none_iff '=', ?_, ?_, ?_, by decide⟩
  · intro acc part h
    simp [cookieStep, h]
  · intro acc part h
    by_cases he : pyStrip part = ""
    · simp [cookieStep, he]
    · rw [String.toList] at h
      simp [cookieStep, he, h]
  · intro acc part k v h hne
    rw [String.toList] at h
    simp [cookieStep, hne, h]

theorem parse_cookies_spec_witness :
    cookieStep [("x", "0")] "   " = [("x", "0")]
    ∧ cookieStep [("x", "0")] " noequals " = [("x", "0")]
    ∧ cookieStep [] " a = 1 " = [("a", "1")] :=
  ⟨parse_cookies_spec.2.2.1 [("x", "0")] "   " (by decide),
   parse_cookies_spec.2.2.2.1 [("x", "0")] " noequals " (by decide),
   (parse_cookies_spec.2.2.2.2.1 [] " a = 1 " "a ".toList " 1".toList
     (by decide) (by decide)).trans (by decide)⟩

theorem pyOrZero_eq_getD (o : Option Nat) : pyOrZero o = o.getD 0 := by
  cases o with
  | none => rfl
  | some n =>
    by_cases h : n = 0 <;> simp [pyOrZero, h]

/-- C9: the directional indicator of a change entry is the increase arrow
`"↗️"` iff `new > old` treating absence as zero, and the decrease arrow
`"↘️"` otherwise — in particular an item appearing with count 0 and an
item with count 0 disappearing are both labelled as decreases — and every
change line ends in exactly that indicator. -/
theorem changeArrow_spec (o n : Option Nat) :
    (changeArrow o n = "↗️" ↔ o.getD 0 < n.getD 0)
    ∧ (changeArrow o n = "↘️" ↔ ¬ o.getD 0 < n.getD 0)
    ∧ changeArrow none (some 0) = "↘️"
    ∧ changeArrow (some 0) none = "↘️"
    ∧ ∀ k : String, ∃ s : String, changeLine k (o, n) = s ++ changeArrow o n := by
  have harrow : changeArrow o n = if o.getD 0 < n.getD 0 then "↗️" else "↘️" := by
    rw [changeArrow, pyOrZero_eq_getD, pyOrZero_eq_getD]
  refine ⟨?_, ?_, by decide, by decide, fun k => ⟨_, rfl⟩⟩
  · rw [harrow]
    by_cases h : o.getD 0 < n.getD 0 <;> simp [h]
  · rw [harrow]
    by_cases h : o.getD 0 < n.getD 0 <;> simp [h]

/-- C2: with a successful non-empty fetch, an existing previous snapshot
and collaborators that do not fail, the notification follows the decision
table: empty change set with suppression on sends nothing; empty change
set with suppression off sends the full current snapshot; non-empty change
set with suppression on sends only the changed entries; non-empty change
set with suppression off sends the full current snapshot, never a
delta-only message. -/
theorem main_notification_decision_table (prev current : Snapshot)
    (mode now : String) (onlyOnChange : Bool) (hne : current ≠ []) :
    sentMessages (Monitor.main (.ok current) (some prev) mode onlyOnChange
        (fun _ => false) false now).1 =
      (if diff_stock prev current = [] then
        (if onlyOnChange then [] else [build_full_message current mode now])
       else if onlyOnChange then
        [build_change_message (diff_stock prev current) mode now]
       else [build_full_message current mode now]) := by
  by_cases hc : diff_stock prev current = [] <;> cases onlyOnChange <;>
    simp [Monitor.main, hne, hc, sentMessages]

theorem main_notification_decision_table_witness :
    sentMessages (Monitor.main (.ok [("CA", 3)]) (some [("CA", 0)]) "realtime"
        true (fun _ => false) false "2026-10-12 00:00:00 UTC").1 =
      [build_change_message (diff_stock [("CA", 0)] [("CA", 3)]) "realtime"
        "2026-10-12 00:00:00 UTC"] :=
  (main_notification_decision_table [("CA", 0)] [("CA", 3)] "realtime"
    "2026-10-12 00:00:00 UTC" true (by decide)).trans (by decide)

/-- C3 fails as stated: `send_tg_message` is called outside every `try`
block of `main`, so a messenger failure propagates to the caller.
Concretely: successful fetch, existing previous snapshot, failing
Telegram send — the run does not return normally. -/
theorem main_raises_on_send_failure :
    (Monitor.main (.ok [("CA", 1)]) (some []) "realtime" false
      (fun _ => true) false "T").2 = false := by decide

/-- C3 amended: provided the snapshot store write and every messenger send
succeed, `main` returns without raising for every outcome of the page
fetch and of the snapshot load — every fetch failure path is caught and
converted into a notification plus a non-crashing return. -/
theorem main_amended_no_raise (fetchResult : Except String Snapshot)
    (last : Option Snapshot) (mode now : String) (onlyOnChange : Bool) :
    (Monitor.main fetchResult last mode onlyOnChange
      (fun _ => false) false now).2 = true := by
  cases fetchResult with
  | error e => simp [Monitor.main]
  | ok current =>
    by_cases hcur : current = []
    · simp [Monitor.main, hcur]
    · cases last with
      | none => simp [Monitor.main, hcur]
      | some lastStock =>
        by_cases hc : diff_stock lastStock current = [] <;>
          cases onlyOnChange <;> simp [Monitor.main, hcur, hc]

/-- C4: when the fetch raises or yields an empty snapshot, nothing is
written to the snapshot store (whatever the messenger and store outcomes),
and with a reachable messenger the run sends exactly the diagnostic
message and returns normally. -/
theorem main_fetch_failure_no_persist (e : String) (last : Option Snapshot)
    (mode now : String) (onlyOnChange : Bool) (sendFails : String → Bool)
    (saveFails : Bool) :
    savedSnapshots (Monitor.main (.error e) last mode onlyOnChange
        sendFails saveFails now).1 = []
    ∧ savedSnapshots (Monitor.main (.ok []) last mode onlyOnChange
        sendFails saveFails now).1 = []
    ∧ Monitor.main (.error e) last mode onlyOnChange
        (fun _ => false) saveFails now = ([.send (fetchFailMsg e)], true)
    ∧ Monitor.main (.ok []) last mode onlyOnChange
        (fun _ => false) saveFails now = ([.send emptyStockMsg], true) := by
  refine ⟨?_, ?_, by simp [Monitor.main], by simp [Monitor.main]⟩
  · by_cases h : sendFails (fetchFailMsg e) <;>
      simp [Monitor.main, h, savedSnapshots]
  · by_cases h : sendFails emptyStockMsg <;>
      simp [Monitor.main, h, savedSnapshots]

/-- C5: on a successful non-empty fetch with an existing previous snapshot
and a working store, the current snapshot is written exactly once and as
the very first effect of the run — before any notification decision or
send — for every messenger outcome, so the persisted baseline does not
depend on whether a message is sent or on whether sending succeeds. -/
theorem main_persists_before_notification (prev current : Snapshot)
    (mode now : String) (onlyOnChange : Bool) (sendFails : String → Bool)
    (hne : current ≠ []) :
    savedSnapshots (Monitor.main (.ok current) (some prev) mode onlyOnChange
        sendFails false now).1 = [current]
    ∧ (Monitor.main (.ok current) (some prev) mode onlyOnChange
        sendFails false now).1.head? = some (.save current) := by
  by_cases hc : diff_stock prev current = [] <;> cases onlyOnChange <;>
    simp only [Monitor.main, hne, hc, if_neg, if_pos, if_true, if_false,
      ite_false, ite_true, Bool.false_eq_true, not_false_eq_true,
      reduceIte] <;>
    (try split) <;> simp [savedSnapshots]

theorem main_persists_before_notification_witness :
    savedSnapshots (Monitor.main (.ok [("CA", 1)]) (some []) "realtime" false
        (fun _ => true) false "T").1 = [[("CA", 1)]]
    ∧ (Monitor.main (.ok [("CA", 1)]) (some []) "realtime" false
        (fun _ => true) false "T").1.head? = some (.save [("CA", 1)]) :=
  main_persists_before_notification [] [("CA", 1)] "realtime" "T" false
    (fun _ => true) (by decide)

/-- C6: `load_last_stock` returns `None` both when the file is missing and
when reading/parsing it fails — a store-read failure is never surfaced as
an error — and in either case a run with a successful non-empty fetch
takes the first-observation branch: it persists the current snapshot and
sends the full-snapshot message annotated as a first-time collection. -/
theorem load_last_stock_first_run (file : Option String)
    (parseJson : String → Option Snapshot) (current : Snapshot)
    (mode now : String) (onlyOnChange : Bool)
    (hfail : file = none ∨ ∃ c, file = some c ∧ parseJson c = none)
    (hne : current ≠ []) :
    load_last_stock file parseJson = none
    ∧ Monitor.main (.ok current) (load_last_stock file parseJson) mode
        onlyOnChange (fun _ => false) false now
      = ([.save current,
          .send (build_full_message current mode now ++ firstRunSuffix)],
         true) := by
  have hload : load_last_stock file parseJson = none := by
    rcases hfail with h | ⟨c, hc, hp⟩
    · simp [load_last_stock, h]
    · simp [load_last_stock, hc, hp]
  refine ⟨hload, ?_⟩
  rw [hload]
  simp [Monitor.main, hne]

theorem load_last_stock_first_run_witness :
    load_last_stock none (fun _ => none) = none
    ∧ Monitor.main (.ok [("CA", 1)]) (load_last_stock none (fun _ => none))
        "realtime" false (fun _ => false) false "T"
      = ([.save [("CA", 1)],
          .send (build_full_message [("CA", 1)] "realtime" "T"
            ++ firstRunSuffix)], true) :=
  load_last_stock_first_run none (fun _ => none) [("CA", 1)] "realtime" "T"
    false (Or.inl rfl) (by decide)

/-- C8: for a product card that passes the title guards and whose stock
tag is found, a stock text with no digit characters yields no snapshot
entry at all (the card is silently skipped, not recorded as count 0), and
a stock text with digits yields the count formed by concatenating its
digit characters in order — a natural number, hence non-negative. -/
theorem fetch_stock_from_url_card_spec (c : Card) (raw tag : String)
    (htitle : c.title = some raw) (hname : pyStrip raw ≠ "")
    (htag : c.cardTexts.find? hasStockMark = some tag) :
    (digitsOf (pyStrip tag) = "" →
      processCard c = none ∧ fetch_stock_from_url [c] = [])
    ∧ (digitsOf (pyStrip tag) ≠ "" →
      processCard c = some (pyStrip raw, digitsToNat (digitsOf (pyStrip tag)))
      ∧ fetch_stock_from_url [c]
          = [(pyStrip raw, digitsToNat (digitsOf (pyStrip tag)))]) := by
  constructor <;> intro h
  · have hp : processCard c = none := by
      simp [processCard, htitle, hname, htag, h]
    exact ⟨hp, by simp [fetch_stock_from_url, hp]⟩
  · have hp : processCard c
        = some (pyStrip raw, digitsToNat (digitsOf (pyStrip tag))) := by
      simp [processCard, htitle, hname, htag, h]
    exact ⟨hp, by simp [fetch_stock_from_url, hp, dictInsert]⟩

theorem fetch_stock_from_url_card_spec_witness :
    processCard ⟨some " CA ", ["套餐描述", "库存：12 件"]⟩ = some ("CA", 12)
    ∧ processCard ⟨some " DE ", ["库存：暂无"]⟩ = none :=
  ⟨(((fetch_stock_from_url_card_spec ⟨some " CA ", ["套餐描述", "库存：12 件"]⟩
      " CA " "库存：12 件" rfl (by decide) (by decide)).2 (by decide)).1).trans
      (by decide),
   ((fetch_stock_from_url_card_spec ⟨some " DE ", ["库存：暂无"]⟩
      " DE " "库存：暂无" rfl (by decide) (by decide)).1 (by decide)).1⟩

theorem firstSome_none_right {α : Type} (a : Option α) :
    firstSome a none = a := by
  cases a <;> rfl

theorem firstSome_assoc {α : Type} (a b c : Option α) :
    firstSome (firstSome a b) c = firstSome a (firstSome b c) := by
  cases a <;> rfl

theorem dget_cons {α : Type} (k0 : String) (v0 : α) (d : List (String × α))
    (k' : String) :
    dget ((k0, v0) :: d) k' = if k0 == k' then some v0 else dget d k' := by
  by_cases h : k0 == k' <;> simp [dget, List.find?, h]

theorem dget_dictInsert {α : Type} (d : List (String × α)) (k k' : String)
    (v : α) :
    dget (dictInsert d k v) k' = if k' = k then some v else dget d k' := by
  induction d with
  | nil =>
    by_cases h : k' = k
    · subst h
      simp [dictInsert, dget, List.find?]
    · simp [dictInsert, dget, List.find?, h,
        beq_eq_false_iff_ne.mpr (fun he => h he.symm)]
  | cons p rest ih =>
    obtain ⟨k0, v0⟩ := p
    by_cases h0 : k0 = k
    · subst h0
      have hins : dictInsert ((k0, v0) :: rest) k0 v = (k0, v) :: rest := by
        simp [dictInsert]
      rw [hins, dget_cons, dget_cons]
      by_cases h : k' = k0
      · simp [h]
      · simp [h, beq_eq_false_iff_ne.mpr (fun he => h he.symm)]
    · have h0' : (k0 == k) = false := beq_eq_false_iff_ne.mpr h0
      have hins : dictInsert ((k0, v0) :: rest) k v
          = (k0, v0) :: dictInsert rest k v := by
        simp [dictInsert, h0']
      rw [hins, dget_cons, dget_cons, ih]
      by_cases h1 : k0 = k'
      · subst h1
        simp [h0]
      · simp [beq_eq_false_iff_ne.mpr h1]

theorem dget_dictUpdate (d part : Snapshot) (hnd : (keysOf part).Nodup)
    (k : String) :
    dget (dictUpdate d part) k = firstSome (dget part k) (dget d k) := by
  induction part generalizing d with
  | nil => simp [dictUpdate, dget, List.find?, firstSome]
  | cons p rest ih =>
    obtain ⟨k0, v0⟩ := p
    have hnd2 := hnd
    simp only [keysOf, List.map_cons, List.nodup_cons] at hnd2
    obtain ⟨hk0, hrest⟩ := hnd2
    have hk0k : k0 ∉ keysOf rest := by
      simp only [keysOf]
      exact hk0
    have hrestk : (keysOf rest).Nodup := by
      simp only [keysOf]
      exact hrest
    have hstep : dictUpdate d ((k0, v0) :: rest)
        = dictUpdate (dictInsert d k0 v0) rest := rfl
    rw [hstep, ih _ hrestk, dget_cons, dget_dictInsert]
    by_cases h : k = k0
    · subst h
      rw [(dget_eq_none_iff rest k).mpr hk0k]
      simp [firstSome]
    · simp [firstSome, h, beq_eq_false_iff_ne.mpr (fun he => h he.symm)]

theorem findSome?_append {α β : Type} (l1 l2 : List α) (f : α → Option β) :
    (l1 ++ l2).findSome? f = firstSome (l1.findSome? f) (l2.findSome? f) := by
  induction l1 with
  | nil => simp [List.findSome?, firstSome]
  | cons a l ih =>
    cases hf : f a <;> simp [List.findSome?, hf, ih, firstSome]

theorem findSome?_singleton {α β : Type} (a : α) (f : α → Option β) :
    [a].findSome? f = f a := by
  cases hf : f a <;> simp [List.findSome?, hf]

theorem dget_foldl_dictUpdate (pages : List Snapshot)
    (hnd : ∀ p ∈ pages, (keysOf p).Nodup) (d : Snapshot) (k : String) :
    dget (pages.foldl dictUpdate d) k
      = firstSome (pages.reverse.findSome? (fun p => dget p k)) (dget d k) := by
  induction pages generalizing d with
  | nil => simp [List.findSome?, firstSome]
  | cons p ps ih =>
    have hp : (keysOf p).Nodup := hnd p (List.mem_cons_self p ps)
    have hps : ∀ q ∈ ps, (keysOf q).Nodup :=
      fun q hq => hnd q (List.mem_cons_of_mem p hq)
    calc dget ((p :: ps).foldl dictUpdate d) k
        = dget (ps.foldl dictUpdate (dictUpdate d p)) k := rfl
      _ = firstSome (ps.reverse.findSome? (fun q => dget q k))
            (dget (dictUpdate d p) k) := ih hps _
      _ = firstSome (ps.reverse.findSome? (fun q => dget q k))
            (firstSome (dget p k) (dget d k)) := by
            rw [dget_dictUpdate d p hp]
      _ = firstSome ((p :: ps).reverse.findSome? (fun q => dget q k))
            (dget d k) := by
            rw [List.reverse_cons, findSome?_append, findSome?_singleton,
              firstSome_assoc]

theorem findSome?_isSome_of_mem {α β : Type} (l : List α) (f : α → Option β)
    (a : α) (ha : a ∈ l) (hf : (f a).isSome) : (l.findSome? f).isSome := by
  induction l with
  | nil => cases ha
  | cons b l ih =>
    cases hb : f b with
    | none =>
      rcases List.mem_cons.mp ha with rfl | ha'
      · rw [hb] at hf
        cases hf
      · simpa [List.findSome?, hb] using ih ha'
    | some v => simp [List.findSome?, hb]

/-- C10: merging the per-URL page results (in the order the URLs are
listed; each result is a dict, hence has distinct keys) is
last-writer-wins: looking up any key in the merged snapshot yields
exactly the value it has in the last-listed page containing it — and
consequently every key appearing in any page appears in the merged
snapshot. -/
theorem fetch_stock_last_writer_wins (pages : List Snapshot)
    (hnd : ∀ p ∈ pages, (keysOf p).Nodup) :
    (∀ k : String, dget (fetch_stock pages) k
        = pages.reverse.findSome? (fun p => dget p k))
    ∧ ∀ (k : String) (p : Snapshot), p ∈ pages → k ∈ keysOf p →
        (dget (fetch_stock pages) k).isSome := by
  have hmain : ∀ k : String, dget (fetch_stock pages) k
      = pages.reverse.findSome? (fun p => dget p k) := by
    intro k
    rw [fetch_stock, dget_foldl_dictUpdate pages hnd [] k]
    simp [dget, List.find?, firstSome_none_right]
  refine ⟨hmain, fun k p hp hk => ?_⟩
  rw [hmain k]
  refine findSome?_isSome_of_mem _ _ p (List.mem_reverse.mpr hp) ?_
  have : dget p k ≠ none := fun h => ((dget_eq_none_iff p k).mp h) hk
  exact Option.isSome_iff_ne_none.mpr this

theorem fetch_stock_last_writer_wins_witness :
    dget (fetch_stock [[("CA", 1), ("DE", 2)], [("CA", 5)]]) "CA" = some 5
    ∧ dget (fetch_stock [[("CA", 1), ("DE", 2)], [("CA", 5)]]) "DE"
        = some 2 :=
  ⟨((fetch_stock_last_writer_wins [[("CA", 1), ("DE", 2)], [("CA", 5)]]
      (by decide)).1 "CA").trans (by decide),
   ((fetch_stock_last_writer_wins [[("CA", 1), ("DE", 2)], [("CA", 5)]]
      (by decide)).1 "DE").trans (by decide)⟩

